import Mathlib

/-!
Verification of the flask-magql GraphQL-over-HTTP adapter.

The development shallowly embeds the request-to-execution pipeline:

* `files.py` / `map_files_to_operations`: walking dotted file-map paths
  through the parsed operations structure and splicing uploaded files in.
* `extension.py` / `_handle_errors`: classifying execution errors,
  redacting unexpected faults, and folding per-operation status codes.
* `extension.py` / `_graphql_view`: the batch coordinator producing the
  single-or-list response body and the overall HTTP status.
* `extension.py` / `_decorate`: application of the registered view
  decorators.

Python dict/list values from the deserialized JSON request are modelled by
the inductive type `J`; in-place mutation is modelled by state passing, and
a raised exception (KeyError, IndexError, ValueError, TypeError) by
`Option.none`.
-/

/-- A JSON-like Python value: the shape of a deserialized `operations`
structure. `file` stands for an opaque uploaded-file handle spliced in by
the file mapper; it is identified by its multipart key for bookkeeping. -/
inductive J where
  | null : J
  | str : String → J
  | num : Int → J
  | file : String → J
  | arr : List J → J
  | obj : List (String × J) → J
  deriving Repr

/-- First-match lookup in an association list, as Python dict subscription
`d[k]` (returning `none` where Python raises KeyError). -/
def lookupJ {α : Type} (k : String) : List (String × α) → Option α
  | [] => none
  | (k₀, v₀) :: rest => if k₀ = k then some v₀ else lookupJ k rest

/-- Python dict assignment `d[k] = v`: replace the first binding of `k`,
or append a new binding when `k` is absent. -/
def objSet {α : Type} (fs : List (String × α)) (k : String) (v : α) :
    List (String × α) :=
  match fs with
  | [] => [(k, v)]
  | (k₀, v₀) :: rest =>
    if k₀ = k then (k, v) :: rest else (k₀, v₀) :: objSet rest k v

/-- Split a string on the dot separator, as Python `path_str.split(".")`:
accumulate characters of the current segment and emit a segment at each
dot; the result always has at least one element. -/
def splitDotAux : List Char → List Char → List String
  | [], acc => [String.mk acc.reverse]
  | c :: cs, acc =>
    if c = '.' then String.mk acc.reverse :: splitDotAux cs []
    else splitDotAux cs (c :: acc)

/-- Python `path_str.split(".")`. -/
def splitDot (s : String) : List String := splitDotAux s.data []

/-- Value of a digit string, most significant first; `none` when a
non-digit character appears. -/
def digitsVal : List Char → Nat → Option Nat
  | [], acc => some acc
  | c :: cs, acc =>
    if c.isDigit then digitsVal cs (acc * 10 + (c.toNat - 48)) else none

/-- Python `int(part)` on the path segments of the multipart spec: an
optional sign followed by a non-empty run of digits (Python also strips
whitespace and allows digit-group underscores; those forms never appear in
dotted paths and are modelled as failures). `none` where Python raises
ValueError. -/
def parsePyInt (s : String) : Option Int :=
  match s.data with
  | [] => none
  | '-' :: rest =>
    if rest = [] then none else (digitsVal rest 0).map (fun n => -(n : Int))
  | '+' :: rest =>
    if rest = [] then none else (digitsVal rest 0).map (fun n => (n : Int))
  | cs => (digitsVal cs 0).map (fun n => (n : Int))

/-- Resolve a Python list index of length `len`: a non-negative index must
be below `len`; a negative index counts from the end. `none` where Python
raises IndexError. -/
def resolveIdx (len : Nat) (i : Int) : Option Nat :=
  if 0 ≤ i then
    if i < (len : Int) then some i.toNat else none
  else
    if i.natAbs ≤ len then some (len - i.natAbs) else none

/-- A resolved accessor: a list position or a mapping key. -/
inductive Accessor where
  | idx : Nat → Accessor
  | key : String → Accessor
  deriving DecidableEq, Repr

/-- How `map_files_to_operations` interprets one raw path segment at the
current cursor: `isinstance(current, list)` directs the segment through
`int(part)` and index resolution, any other cursor uses the segment as a
mapping key. `none` models ValueError from `int()`, IndexError, and
TypeError on a non-container cursor. -/
def accAt : J → String → Option Accessor
  | .arr xs, s => (parsePyInt s).bind fun i => (resolveIdx xs.length i).map .idx
  | .obj _, s => some (.key s)
  | _, _ => none

/-- Read the child of a container at a resolved accessor (`current[part]`).
-/
def child : J → Accessor → Option J
  | .arr xs, .idx n => xs.get? n
  | .obj fs, .key k => lookupJ k fs
  | _, _ => none

/-- Write a child of a container at a resolved accessor
(`current[part] = v`). List assignment requires the position to exist;
mapping assignment is a blind overwrite that also inserts absent keys. -/
def setChild : J → Accessor → J → Option J
  | .arr xs, .idx n, v =>
    if n < xs.length then some (.arr (xs.set n v)) else none
  | .obj fs, .key k, v => some (.obj (objSet fs k v))
  | _, _, _ => none

/-- Descend through a sequence of raw segments, reading only: the cursor
walk of `map_files_to_operations` without the final write. -/
def getPath : J → List String → Option J
  | t, [] => some t
  | t, s :: rest => ((accAt t s).bind (child t)).bind fun c => getPath c rest

/-- The body of `map_files_to_operations` for one split path
`(segs, last)`: walk `segs` with the type-directed cursor, then blindly
overwrite position `last` of the terminal container with `v`. In-place
mutation is modelled by rebuilding the spine: each visited container is
put back with its visited child replaced. -/
def setPath : J → List String → String → J → Option J
  | t, [], last, v => (accAt t last).bind fun a => setChild t a v
  | t, s :: rest, last, v =>
    (accAt t s).bind fun a =>
      (child t a).bind fun c =>
        (setPath c rest last v).bind fun c₂ => setChild t a c₂

/-- Apply one file-map entry path: split the dotted path on `"."` into
leading segments and a final segment, then write `files[filesKey]` at the
addressed location. -/
def applyPath (files : List (String × J)) (filesKey : String) (ops : J)
    (pathStr : String) : Option J :=
  let parts := splitDot pathStr
  match lookupJ filesKey files with
  | none => none
  | some f => setPath ops parts.dropLast (parts.getLastD "") f

/-- Embeds `files.map_files_to_operations`: for each `(filesKey, paths)` entry of
the file map, for each dotted path, splice the uploaded file for
`filesKey` into the operations structure at the addressed location. The
Python function mutates `operations` in place and returns `None`; here the
mutated structure is returned, `none` standing for a raised exception. -/
def map_files_to_operations (operations : J)
    (file_map : List (String × List String)) (files : List (String × J)) :
    Option J :=
  file_map.foldlM
    (fun ops entry => entry.2.foldlM (applyPath files entry.1) ops)
    operations

example :
    map_files_to_operations
      (.obj [("query", .str "q"), ("variables", .obj [("data", .null)])])
      [("0", ["variables.data"])] [("0", .file "0")] =
      some (.obj [("query", .str "q"),
        ("variables", .obj [("data", .file "0")])]) := rfl

/-! ## Error classification (`extension.py` / `_handle_errors`) -/

/-- The `original_error` of a `graphql.GraphQLError`: an underlying fault
raised during execution. `isGraphQLError` records whether
`isinstance(oe, graphql.GraphQLError)` holds; `detail` is the formatted
traceback text of the fault (`traceback.format_exception` joined by
newlines). -/
structure Fault where
  isGraphQLError : Bool
  detail : String
  deriving DecidableEq, Repr

/-- A `graphql.GraphQLError` from an execution result. `path` holds the
printed form of the error's field path when one is present; `extensions`
is the error's extensions mapping. -/
structure GError where
  message : String
  path : Option String
  original_error : Option Fault
  extensions : Option (List (String × String))
  deriving DecidableEq, Repr

/-- One record emitted through `current_app.logger.error(message,
exc_info=oe)`: the log message plus the attached fault detail. -/
structure LogEntry where
  message : String
  excDetail : String
  deriving DecidableEq, Repr

/-- One iteration of the loop in `_handle_errors`, threading the mutated
error list, the operation's `current_status`, and the emitted log entries.
An error whose `original_error` is absent or is itself a GraphQLError is
passed through untouched; otherwise `current_status` becomes 500, the
message is overwritten with the generic marker, in debug mode the
formatted traceback is attached to `extensions` under the fixed key
`"exception"`, and a log entry is emitted whose message names the field
path when one is present and falls back to operation-level phrasing
otherwise. -/
def handleStep (debug : Bool) (acc : List GError × Nat × List LogEntry)
    (e : GError) : List GError × Nat × List LogEntry :=
  match e.original_error with
  | none => (acc.1 ++ [e], acc.2.1, acc.2.2)
  | some oe =>
    if oe.isGraphQLError then (acc.1 ++ [e], acc.2.1, acc.2.2)
    else
      let e₂ : GError :=
        { e with
          message := "Internal Server Error"
          extensions :=
            if debug then some [("exception", oe.detail)] else e.extensions }
      let logMessage :=
        match e.path with
        | some p => "Exception on GraphQL field " ++ p
        | none => "Exception on GraphQL operation"
      (acc.1 ++ [e₂], 500, acc.2.2 ++ [⟨logMessage, oe.detail⟩])

/-- Embeds `extension.py` / `_handle_errors`: start `current_status` at 400, scan
the errors, and return the mutated errors, the folded status (never
downgrading the status passed in), and the log entries. `debug` stands for
`current_app.debug`. -/
def handle_errors (debug : Bool) (errors : List GError) (status : Nat) :
    List GError × Nat × List LogEntry :=
  let r := errors.foldl (handleStep debug) ([], 400, [])
  (r.1, if r.2.1 > status then r.2.1 else status, r.2.2)

/-- The log call of the historical `_views.py` / `_handle_errors` variant:
it formats the field path into the message unconditionally, so an absent
path is printed as the text `None` rather than switching to
operation-level phrasing. -/
def viewsLogMessage (path : Option String) : String :=
  "Exception on GraphQL field " ++
    (match path with
     | some p => p
     | none => "None")

/-- One iteration of the loop in the historical `_views.py` /
`_handle_errors` variant: identical to `handleStep` except that the debug
traceback is attached under the key `"traceback"` and the log message is
`viewsLogMessage`. -/
def viewsHandleStep (debug : Bool) (acc : List GError × Nat × List LogEntry)
    (e : GError) : List GError × Nat × List LogEntry :=
  match e.original_error with
  | none => (acc.1 ++ [e], acc.2.1, acc.2.2)
  | some oe =>
    if oe.isGraphQLError then (acc.1 ++ [e], acc.2.1, acc.2.2)
    else
      let e₂ : GError :=
        { e with
          message := "Internal Server Error"
          extensions :=
            if debug then some [("traceback", oe.detail)] else e.extensions }
      (acc.1 ++ [e₂], 500, acc.2.2 ++ [⟨viewsLogMessage e.path, oe.detail⟩])

/-- Embeds `_views.py` / `_handle_errors` (historical variant). -/
def views_handle_errors (debug : Bool) (errors : List GError) (status : Nat) :
    List GError × Nat × List LogEntry :=
  let r := errors.foldl (viewsHandleStep debug) ([], 400, [])
  (r.1, if r.2.1 > status then r.2.1 else status, r.2.2)

/-! ## The `/graphql` view (`extension.py` / `_graphql_view`) -/

/-- One parsed operation payload: `operation["query"]`,
`operation.get("variables")`, `operation.get("operationName")`. -/
structure Operation where
  query : String
  vars : Option J
  operationName : Option String
  deriving Repr

/-- A `graphql.ExecutionResult` as produced by `MagqlExtension.execute`. -/
structure ExecResult where
  data : Option J
  errors : Option (List GError)
  deriving Repr

/-- The formatted form of one error within `result.formatted`: its
(possibly redacted) message, its path when present, and its extensions
when present. -/
def formatError (e : GError) : J :=
  .obj ([("message", .str e.message)]
    ++ (match e.path with
        | some p => [("path", .str p)]
        | none => [])
    ++ (match e.extensions with
        | some ext => [("extensions", .obj (ext.map fun kv => (kv.1, J.str kv.2)))]
        | none => []))

/-- Embeds `result.formatted`: the `data` entry, plus an `errors` entry exactly
when the error list is present. -/
def formattedResult (r : ExecResult) : J :=
  .obj ([("data", match r.data with | some d => d | none => .null)]
    ++ (match r.errors with
        | some errs => [("errors", .arr (errs.map formatError))]
        | none => []))

/-- The parsed request body: `is_single = not isinstance(operations, list)`
distinguishes a bare operation object from a batch array. -/
inductive Payload where
  | single : Operation → Payload
  | batch : List Operation → Payload

/-- One iteration of the operation loop in `_graphql_view`: execute the
operation, run `_handle_errors` when the result's error list is present
(mutating the errors and folding the status), and append the formatted
result. `exec` stands for `self.execute`, i.e. the external GraphQL
engine. -/
def viewStep (exec : Operation → ExecResult) (debug : Bool)
    (acc : List J × Nat × List LogEntry) (op : Operation) :
    List J × Nat × List LogEntry :=
  let result := exec op
  match result.errors with
  | some errs =>
    let h := handle_errors debug errs acc.2.1
    (acc.1 ++ [formattedResult { result with errors := some h.1 }],
      h.2.1, acc.2.2 ++ h.2.2)
  | none => (acc.1 ++ [formattedResult result], acc.2.1, acc.2.2)

/-- Embeds `extension.py` / `_graphql_view` after body parsing: normalize a single
payload to a one-element list, run every operation in request order
starting from status 200, then mirror the request shape in the response
body: the bare first formatted result for a single payload, the array of
formatted results for a batch. Returns the response body, the HTTP status,
and the emitted log entries. -/
def graphql_view (exec : Operation → ExecResult) (debug : Bool)
    (payload : Payload) : J × Nat × List LogEntry :=
  let operations :=
    match payload with
    | .single op => [op]
    | .batch ops => ops
  let r := operations.foldl (viewStep exec debug) ([], 200, [])
  match payload with
  | .single _ => (r.1.headD .null, r.2.1, r.2.2)
  | .batch _ => (.arr r.1, r.2.1, r.2.2)

/-! ## Decorator application (`extension.py` / `_decorate`) -/

/-- Embeds `extension.py` / `_decorate`: apply the registered view decorators to
a view function in list order, each wrapping the previous result. -/
def _decorate {V : Type} (decorators : List (V → V)) (f : V) : V :=
  decorators.foldl (fun g d => d g) f

/-! ## Characterizations used to state the claims -/

/-- The source condition `oe is not None and not isinstance(oe,
graphql.GraphQLError)`: the error carries an unexpected (non-GraphQL)
original fault. -/
def isUnexpected (e : GError) : Bool :=
  match e.original_error with
  | some oe => !oe.isGraphQLError
  | none => false

/-- The per-operation status contribution described by the spec: 200 for a
result whose error list is absent, 400 when it is present, escalated to
500 when some error carries a non-GraphQL original fault. -/
def contribution (r : ExecResult) : Nat :=
  match r.errors with
  | none => 200
  | some errs => if errs.any isUnexpected then 500 else 400

/-- The effect of one `_handle_errors` iteration on one error object: an
expected error is untouched; an unexpected one has its message replaced by
the generic marker and, in debug mode only, the traceback attached to its
extensions. -/
def redactOne (debug : Bool) (e : GError) : GError :=
  match e.original_error with
  | none => e
  | some oe =>
    if oe.isGraphQLError then e
    else
      { e with
        message := "Internal Server Error"
        extensions :=
          if debug then some [("exception", oe.detail)] else e.extensions }

/-- The log entry one `_handle_errors` iteration emits for one error:
nothing for an expected error, the field-path (or operation-level) message
with the fault detail for an unexpected one. -/
def logOne (e : GError) : Option LogEntry :=
  match e.original_error with
  | none => none
  | some oe =>
    if oe.isGraphQLError then none
    else
      some ⟨(match e.path with
             | some p => "Exception on GraphQL field " ++ p
             | none => "Exception on GraphQL operation"), oe.detail⟩

/-- The response item the spec assigns to one operation of a batch: the
formatted execution result after error redaction, independent of every
other operation in the batch. -/
def operationResponse (exec : Operation → ExecResult) (debug : Bool)
    (op : Operation) : J :=
  let result := exec op
  match result.errors with
  | none => formattedResult result
  | some errs =>
    formattedResult { result with errors := some (handle_errors debug errs 200).1 }

/-- The log entries one operation of a batch contributes: those of its
classified errors when the error list is present, none otherwise. -/
def opLogs (exec : Operation → ExecResult) (op : Operation) : List LogEntry :=
  match (exec op).errors with
  | some errs => errs.filterMap logOne
  | none => []

/-- Test fixture: an error carrying an unexpected Python fault, as raised
by the `resolve_error` resolver of `test_errors.py`. -/
def pyFaultError : GError :=
  ⟨"error requested", some "[error]", some ⟨false, "Traceback: boom"⟩, none⟩

/-- Test fixture: a resolver-declared validation error (its original error
is itself a GraphQLError), as raised by `validate_greet_name`. -/
def validationError : GError :=
  ⟨"magql argument validation", some "[greet]", some ⟨true, "gql"⟩, none⟩

/-- Test fixture: an execution engine keyed on the query text, standing
for `MagqlExtension.execute` over the schemas of the test suite. -/
def testExec : Operation → ExecResult := fun op =>
  if op.query = "queryError" then ⟨none, some [pyFaultError]⟩
  else if op.query = "queryInvalid" then ⟨none, some [validationError]⟩
  else if op.query = "queryEmptyErrors" then ⟨some .null, some []⟩
  else ⟨some (.obj [("greet", .str "Hello, World!")]), none⟩

/-- Test fixture: the operation payload with the given query text. -/
def testOp (q : String) : Operation := ⟨q, none, none⟩

/-- Two raw-segment paths diverge below `t`: after a shared run of raw
segments, walked through identical cursors, the two next segments resolve
at the same cursor to different accessors. A location whose path diverges
from a written path is untouched by the write. -/
inductive Diverges : J → List String → List String → Prop
  | here (t : J) (s₁ s₂ : String) (r₁ r₂ : List String) (a₁ a₂ : Accessor)
      (h₁ : accAt t s₁ = some a₁) (h₂ : accAt t s₂ = some a₂)
      (hne : a₁ ≠ a₂) : Diverges t (s₁ :: r₁) (s₂ :: r₂)
  | there (t : J) (s : String) (r₁ r₂ : List String) (a : Accessor) (c : J)
      (ha : accAt t s = some a) (hc : child t a = some c)
      (hd : Diverges c r₁ r₂) : Diverges t (s :: r₁) (s :: r₂)

/-- The file map flattened into the order in which the two nested loops of
`map_files_to_operations` visit `(files_key, path)` pairs. -/
def flattenMap (fm : List (String × List String)) : List (String × String) :=
  fm.flatMap fun entry => entry.2.map fun p => (entry.1, p)

/-- Every visited file-map path diverges from the location `q`, each path
being resolved against the operations structure as already mutated by the
earlier writes, exactly as the in-place loop resolves it. -/
def FramedFrom (files : List (String × J)) (q : List String) :
    J → List (String × String) → Prop
  | _, [] => True
  | t, (k, p) :: rest =>
    Diverges t (splitDot p) q ∧
      match applyPath files k t p with
      | some t₂ => FramedFrom files q t₂ rest
      | none => True

/-! # Theorems

Characterization lemmas about the embedded functions, followed by one
theorem per specification claim. -/

theorem handleFold_spec (debug : Bool) :
    ∀ (errors : List GError) (acc : List GError × Nat × List LogEntry),
      errors.foldl (handleStep debug) acc =
        (acc.1 ++ errors.map (redactOne debug),
          if errors.any isUnexpected then 500 else acc.2.1,
          acc.2.2 ++ errors.filterMap logOne) := by
  intro errors
  induction errors with
  | nil => intro acc; simp
  | cons e rest ih =>
    intro acc
    simp only [List.foldl_cons, List.map_cons, List.any_cons,
      List.filterMap_cons]
    rw [ih]
    cases hoe : e.original_error with
    | none =>
      simp [handleStep, redactOne, logOne, isUnexpected, hoe]
    | some oe =>
      cases hg : oe.isGraphQLError with
      | true => simp [handleStep, redactOne, logOne, isUnexpected, hoe, hg]
      | false => simp [handleStep, redactOne, logOne, isUnexpected, hoe, hg]

theorem ifGt_eq_max (a b : Nat) : (if a > b then a else b) = max b a := by
  rcases le_or_lt a b with h | h
  · rw [if_neg (by omega), Nat.max_eq_left h]
  · rw [if_pos h, Nat.max_eq_right (le_of_lt h)]

theorem handle_errors_spec (debug : Bool) (errors : List GError)
    (status : Nat) :
    handle_errors debug errors status =
      (errors.map (redactOne debug),
        max status (if errors.any isUnexpected then 500 else 400),
        errors.filterMap logOne) := by
  simp only [handle_errors, handleFold_spec, ifGt_eq_max, List.nil_append]

theorem viewFold_spec (exec : Operation → ExecResult) (debug : Bool) :
    ∀ (ops : List Operation) (acc : List J × Nat × List LogEntry),
      200 ≤ acc.2.1 →
      ops.foldl (viewStep exec debug) acc =
        (acc.1 ++ ops.map (operationResponse exec debug),
          (ops.map fun op => contribution (exec op)).foldl max acc.2.1,
          acc.2.2 ++ ops.flatMap (opLogs exec)) := by
  intro ops
  induction ops with
  | nil => intro acc _; simp
  | cons op rest ih =>
    intro acc h200
    simp only [List.foldl_cons, List.map_cons, List.flatMap_cons]
    cases hE : (exec op).errors with
    | none =>
      have hstep : viewStep exec debug acc op =
          (acc.1 ++ [formattedResult (exec op)], acc.2.1, acc.2.2) := by
        simp [viewStep, hE]
      rw [hstep,
        ih (acc.1 ++ [formattedResult (exec op)], acc.2.1, acc.2.2) h200]
      have hcontrib : contribution (exec op) = 200 := by
        simp [contribution, hE]
      have hresp : operationResponse exec debug op = formattedResult (exec op) := by
        simp [operationResponse, hE]
      have hlogs : opLogs exec op = [] := by simp [opLogs, hE]
      rw [hcontrib, hresp, hlogs]
      simp [Nat.max_eq_left h200]
    | some errs =>
      have hstep : viewStep exec debug acc op =
          (acc.1 ++ [formattedResult
              { exec op with errors := some (errs.map (redactOne debug)) }],
            max acc.2.1 (if errs.any isUnexpected then 500 else 400),
            acc.2.2 ++ errs.filterMap logOne) := by
        simp [viewStep, hE, handle_errors_spec]
      rw [hstep,
        ih (acc.1 ++ [formattedResult
              { exec op with errors := some (errs.map (redactOne debug)) }],
            max acc.2.1 (if errs.any isUnexpected then 500 else 400),
            acc.2.2 ++ errs.filterMap logOne)
          (le_trans h200 (le_max_left _ _))]
      have hcontrib : contribution (exec op) =
          (if errs.any isUnexpected then 500 else 400) := by
        simp [contribution, hE]
      have hresp : operationResponse exec debug op = formattedResult
          { exec op with errors := some (errs.map (redactOne debug)) } := by
        simp [operationResponse, hE, handle_errors_spec]
      have hlogs : opLogs exec op = errs.filterMap logOne := by
        simp [opLogs, hE]
      rw [hcontrib, hresp, hlogs]
      simp

theorem graphql_view_single_spec (exec : Operation → ExecResult)
    (debug : Bool) (op : Operation) :
    graphql_view exec debug (.single op) =
      (operationResponse exec debug op, max 200 (contribution (exec op)),
        opLogs exec op) := by
  simp [graphql_view, viewFold_spec exec debug [op] ([], 200, []) (le_refl 200)]

theorem graphql_view_batch_spec (exec : Operation → ExecResult)
    (debug : Bool) (ops : List Operation) :
    graphql_view exec debug (.batch ops) =
      (.arr (ops.map (operationResponse exec debug)),
        (ops.map fun op => contribution (exec op)).foldl max 200,
        ops.flatMap (opLogs exec)) := by
  simp [graphql_view, viewFold_spec exec debug ops ([], 200, []) (le_refl 200)]

theorem foldl_max_perm :
    ∀ {l₁ l₂ : List Nat}, l₁.Perm l₂ → ∀ (a : Nat),
      l₁.foldl max a = l₂.foldl max a := by
  intro l₁ l₂ h
  induction h with
  | nil => intro a; rfl
  | cons x _ ih => intro a; simp only [List.foldl_cons]; exact ih _
  | swap x y l => intro a; simp only [List.foldl_cons, Nat.max_right_comm]
  | trans _ _ ih₁ ih₂ => intro a; rw [ih₁, ih₂]

/-- C1: for every batch processed by the `/graphql` view, the overall
HTTP status equals the fold of `max` over 200 and each operation's status
contribution (200 when the result's error list is absent, 400 when it is
present, escalated to 500 when some error carries a non-GraphQL original
fault), so earlier high-severity contributions are never downgraded and
the overall status is invariant under permuting the operations. -/
theorem claim_C1 (exec : Operation → ExecResult) (debug : Bool)
    (ops : List Operation) :
    (graphql_view exec debug (.batch ops)).2.1 =
        (ops.map fun op => contribution (exec op)).foldl max 200 ∧
    ∀ ops₂ : List Operation, ops.Perm ops₂ →
      (graphql_view exec debug (.batch ops₂)).2.1 =
        (graphql_view exec debug (.batch ops)).2.1 := by
  constructor
  · rw [graphql_view_batch_spec]
  · intro ops₂ h
    rw [graphql_view_batch_spec, graphql_view_batch_spec]
    exact (foldl_max_perm
      (List.Perm.map (fun op => contribution (exec op)) h) 200).symm

/-- Witness for C1: the two batch orders of `test_batch_max` both produce
overall status 500. -/
theorem claim_C1_witness :
    (graphql_view testExec false
        (.batch [testOp "queryError", testOp "queryInvalid"])).2.1 = 500 ∧
    (graphql_view testExec false
        (.batch [testOp "queryInvalid", testOp "queryError"])).2.1 = 500 := by
  have h₁ := (claim_C1 testExec false
    [testOp "queryError", testOp "queryInvalid"]).1
  have h₂ := (claim_C1 testExec false
    [testOp "queryError", testOp "queryInvalid"]).2
    [testOp "queryInvalid", testOp "queryError"]
    (List.Perm.swap (testOp "queryInvalid") (testOp "queryError") [])
  rw [h₁]
  rw [h₂, h₁]
  exact ⟨rfl, rfl⟩

/-- C2: the response body mirrors the request shape: a single operation
payload yields the bare formatted result (status 200 on a result with no
error list), and a batch of n operations yields an array of exactly n
formatted results in request order, regardless of per-operation failure. -/
theorem claim_C2 (exec : Operation → ExecResult) (debug : Bool) :
    (∀ op : Operation,
        (graphql_view exec debug (.single op)).1 =
          operationResponse exec debug op) ∧
    (∀ op : Operation, (exec op).errors = none →
        graphql_view exec debug (.single op) =
          (formattedResult (exec op), 200, [])) ∧
    (∀ ops : List Operation,
        (graphql_view exec debug (.batch ops)).1 =
          .arr (ops.map (operationResponse exec debug))) ∧
    (∀ ops : List Operation,
        (ops.map (operationResponse exec debug)).length = ops.length) := by
  refine ⟨?_, ?_, ?_, ?_⟩
  · intro op; rw [graphql_view_single_spec]
  · intro op hE
    rw [graphql_view_single_spec]
    have h₁ : operationResponse exec debug op = formattedResult (exec op) := by
      simp [operationResponse, hE]
    have h₂ : contribution (exec op) = 200 := by simp [contribution, hE]
    have h₃ : opLogs exec op = [] := by simp [opLogs, hE]
    rw [h₁, h₂, h₃]
    rfl
  · intro ops; rw [graphql_view_batch_spec]
  · intro ops; exact List.length_map ops _

/-- Witness for C2: a successful single operation yields the bare
formatted result with status 200, and a two-operation batch yields the
two-element array. -/
theorem claim_C2_witness :
    graphql_view testExec false (.single (testOp "queryOk")) =
      (formattedResult (testExec (testOp "queryOk")), 200, []) ∧
    (graphql_view testExec false
        (.batch [testOp "queryOk", testOp "queryError"])).1 =
      .arr ([testOp "queryOk", testOp "queryError"].map
        (operationResponse testExec false)) :=
  ⟨(claim_C2 testExec false).2.1 (testOp "queryOk") rfl,
    (claim_C2 testExec false).2.2.1 [testOp "queryOk", testOp "queryError"]⟩

/-- C8: the installed view is the list of decorators folded over the core
view function, the first decorator wrapping closest to the core and the
last being outermost; the application distributes over list concatenation
uniformly in the view function. -/
theorem claim_C8 (V : Type) (ds₁ ds₂ : List (V → V)) (d₁ d₂ d₃ e : V → V)
    (f : V) :
    _decorate (ds₁ ++ ds₂) f = _decorate ds₂ (_decorate ds₁ f) ∧
    _decorate (d₁ :: ds₁) f = _decorate ds₁ (d₁ f) ∧
    _decorate (ds₁ ++ [e]) f = e (_decorate ds₁ f) ∧
    _decorate [d₁, d₂, d₃] f = d₃ (d₂ (d₁ f)) ∧
    _decorate ([] : List (V → V)) f = f := by
  refine ⟨?_, rfl, ?_, rfl, rfl⟩
  · simp [_decorate, List.foldl_append]
  · simp [_decorate, List.foldl_append]

/-- C9: a result whose error list is present but empty still goes through
the error classifier, so a single such operation yields overall status
400 with no error reported in the body and nothing logged. -/
theorem claim_C9 (exec : Operation → ExecResult) (debug : Bool)
    (op : Operation) :
    (exec op).errors = some [] →
    graphql_view exec debug (.single op) =
      (formattedResult ⟨(exec op).data, some []⟩, 400, []) := by
  intro hE
  rw [graphql_view_single_spec]
  have h₁ : operationResponse exec debug op =
      formattedResult ⟨(exec op).data, some []⟩ := by
    rcases hR : exec op with ⟨d, eo⟩
    have he : eo = some [] := by rw [hR] at hE; exact hE
    subst he
    simp [operationResponse, hR, handle_errors_spec]
  have h₂ : contribution (exec op) = 400 := by simp [contribution, hE]
  have h₃ : opLogs exec op = [] := by simp [opLogs, hE]
  rw [h₁, h₂, h₃]
  rfl

/-- Witness for C9: a concrete result with a present-but-empty error list
yields status 400. -/
theorem claim_C9_witness :
    graphql_view testExec false (.single (testOp "queryEmptyErrors")) =
      (formattedResult
        ⟨(testExec (testOp "queryEmptyErrors")).data, some []⟩, 400, []) :=
  claim_C9 testExec false (testOp "queryEmptyErrors") rfl

/-- C4: an error carrying a non-GraphQL original fault escalates the
operation's contribution to 500, has its client-visible message
overwritten with exactly the generic marker, keeps its extensions
untouched when debug mode is off, and produces a server-side log entry
carrying the full fault detail. -/
theorem claim_C4 (e : GError) (oe : Fault) (status : Nat)
    (h₁ : e.original_error = some oe) (h₂ : oe.isGraphQLError = false) :
    handle_errors false [e] status =
      ([{ e with message := "Internal Server Error" }], max status 500,
        [⟨match e.path with
          | some p => "Exception on GraphQL field " ++ p
          | none => "Exception on GraphQL operation", oe.detail⟩]) := by
  rw [handle_errors_spec]
  simp [redactOne, logOne, isUnexpected, h₁, h₂]

/-- Witness for C4 at the error of `test_code_error`. -/
theorem claim_C4_witness :
    handle_errors false [pyFaultError] 200 =
      ([{ pyFaultError with message := "Internal Server Error" }], 500,
        [⟨"Exception on GraphQL field [error]", "Traceback: boom"⟩]) := by
  have h := claim_C4 pyFaultError ⟨false, "Traceback: boom"⟩ 200 rfl rfl
  rw [h]
  rfl

/-- C5: with debug mode on, classifying a non-GraphQL fault attaches the
formatted fault traceback to the error's extensions under the fixed key
`exception`; with debug off, the client-visible formatted error is
independent of the fault's detail, so the debug attachment is the only
path by which the detail reaches the client. -/
theorem claim_C5 (e : GError) (oe : Fault) (status : Nat)
    (h₁ : e.original_error = some oe) (h₂ : oe.isGraphQLError = false) :
    handle_errors true [e] status =
      ([{ e with
          message := "Internal Server Error"
          extensions := some [("exception", oe.detail)] }], max status 500,
        [⟨match e.path with
          | some p => "Exception on GraphQL field " ++ p
          | none => "Exception on GraphQL operation", oe.detail⟩]) ∧
    ∀ d₁ d₂ : String,
      ((handle_errors false [{ e with original_error := some ⟨false, d₁⟩ }]
          status).1.map formatError) =
      ((handle_errors false [{ e with original_error := some ⟨false, d₂⟩ }]
          status).1.map formatError) := by
  constructor
  · rw [handle_errors_spec]
    simp [redactOne, logOne, isUnexpected, h₁, h₂]
  · intro d₁ d₂
    rw [handle_errors_spec, handle_errors_spec]
    simp [redactOne, isUnexpected, formatError]

/-- Witness for C5 at the error of `test_500_debug`. -/
theorem claim_C5_witness :
    handle_errors true [pyFaultError] 200 =
      ([{ pyFaultError with
          message := "Internal Server Error"
          extensions := some [("exception", "Traceback: boom")] }], 500,
        [⟨"Exception on GraphQL field [error]", "Traceback: boom"⟩]) := by
  have h := (claim_C5 pyFaultError ⟨false, "Traceback: boom"⟩ 200 rfl rfl).1
  rw [h]
  rfl

theorem redactOne_of_expected (debug : Bool) (e : GError)
    (h : isUnexpected e = false) : redactOne debug e = e := by
  cases hoe : e.original_error with
  | none => simp [redactOne, hoe]
  | some oe =>
    have h₂ : oe.isGraphQLError = true := by
      rw [isUnexpected, hoe] at h
      simpa using h
    simp [redactOne, hoe, h₂]

theorem logOne_of_expected (e : GError) (h : isUnexpected e = false) :
    logOne e = none := by
  cases hoe : e.original_error with
  | none => simp [logOne, hoe]
  | some oe =>
    have h₂ : oe.isGraphQLError = true := by
      rw [isUnexpected, hoe] at h
      simpa using h
    simp [logOne, hoe, h₂]

/-- C6: an error with no original fault, or whose original fault is itself
a GraphQLError, passes through the classifier with message and extensions
untouched and no log entry, in any surrounding error list; a list of only
such errors contributes exactly 400. -/
theorem claim_C6 (debug : Bool) (errors : List GError) (status : Nat) :
    ((∀ e ∈ errors, isUnexpected e = false) →
      handle_errors debug errors status = (errors, max status 400, [])) ∧
    (∀ (pre post : List GError) (e : GError), isUnexpected e = false →
      (handle_errors debug (pre ++ e :: post) status).1 =
        (handle_errors debug pre status).1 ++
          e :: (handle_errors debug post status).1 ∧
      (handle_errors debug (pre ++ e :: post) status).2.2 =
        (handle_errors debug pre status).2.2 ++
          (handle_errors debug post status).2.2) := by
  constructor
  · intro hAll
    rw [handle_errors_spec]
    have hmap : errors.map (redactOne debug) = errors := by
      rw [List.map_congr_left fun e he => redactOne_of_expected debug e (hAll e he)]
      exact List.map_id errors
    have hany : errors.any isUnexpected = false := by
      simp only [List.any_eq_false]
      intro e he
      simp [hAll e he]
    have hlog : errors.filterMap logOne = [] := by
      rw [List.filterMap_eq_nil_iff]
      intro e he
      exact logOne_of_expected e (hAll e he)
    rw [hmap, hany, hlog]
    rfl
  · intro pre post e hExp
    rw [handle_errors_spec, handle_errors_spec, handle_errors_spec]
    constructor
    · simp [redactOne_of_expected debug e hExp]
    · simp [logOne_of_expected e hExp]

/-- Witness for C6 at the validation error of `test_validation_error`,
also mixed into a list with an unexpected error. -/
theorem claim_C6_witness :
    handle_errors false [validationError] 200 = ([validationError], 400, []) ∧
    (handle_errors false ([pyFaultError] ++ validationError :: []) 200).1 =
      (handle_errors false [pyFaultError] 200).1 ++
        validationError :: (handle_errors false [] 200).1 := by
  constructor
  · have h := (claim_C6 false [validationError] 200).1 (by decide)
    rw [h]
    rfl
  · exact ((claim_C6 false ([] : List GError) 200).2 [pyFaultError] []
      validationError (by decide)).1

/-- C7 counterexample: in the `_views.py` classifier variant, an
unexpected fault on an error with no field path is logged with the
field-path phrasing interpolating the text `None`, not with the
operation-level phrasing. -/
theorem claim_C7_counterexample :
    (views_handle_errors false
        [⟨"boom", none, some ⟨false, "tb"⟩, none⟩] 200).2.2 =
      [⟨"Exception on GraphQL field None", "tb"⟩] ∧
    (views_handle_errors false
        [⟨"boom", none, some ⟨false, "tb"⟩, none⟩] 200).2.2 ≠
      [⟨"Exception on GraphQL operation", "tb"⟩] := by
  constructor
  · rfl
  · decide

/-- C7 (amended): in the `extension.py` classifier, an unexpected fault on
an error with no field path is logged with the operation-level phrasing;
the historical `_views.py` variant instead always uses the field-path
phrasing, printing `None` when no path is present. -/
theorem claim_C7 (debug : Bool) (e : GError) (oe : Fault) (status : Nat)
    (hp : e.path = none) (h₁ : e.original_error = some oe)
    (h₂ : oe.isGraphQLError = false) :
    (handle_errors debug [e] status).2.2 =
      [⟨"Exception on GraphQL operation", oe.detail⟩] ∧
    (views_handle_errors debug [e] status).2.2 =
      [⟨"Exception on GraphQL field None", oe.detail⟩] := by
  constructor
  · rw [handle_errors_spec]
    simp [logOne, h₁, h₂, hp]
  · unfold views_handle_errors
    simp [viewsHandleStep, h₁, h₂, viewsLogMessage, hp]

/-- Witness for C7 at a concrete no-path error. -/
theorem claim_C7_witness :
    (handle_errors false [⟨"boom", none, some ⟨false, "tb"⟩, none⟩]
        200).2.2 = [⟨"Exception on GraphQL operation", "tb"⟩] ∧
    (views_handle_errors false [⟨"boom", none, some ⟨false, "tb"⟩, none⟩]
        200).2.2 = [⟨"Exception on GraphQL field None", "tb"⟩] :=
  claim_C7 false ⟨"boom", none, some ⟨false, "tb"⟩, none⟩ ⟨false, "tb"⟩ 200
    rfl rfl rfl

theorem resolveIdx_coe_lt (len n : Nat) (h : n < len) :
    resolveIdx len (n : Int) = some n := by
  simp [resolveIdx, h]

/-- C3: every non-terminal path segment is interpreted by the runtime type
of the cursor (integer index into a sequence, key into a mapping), the
terminal segment is interpreted the same way against the terminal
container and blindly overwritten; concretely, `variables.data` replaces a
scalar variable, `variables.data.0` and `variables.data.1` fill list
indices 0 and 1, and `0.variables.data` and `1.variables.data.0` target
the first and second operations of a batch. -/
theorem claim_C3 :
    (∀ (fs : List (String × J)) (s : String) (rest : List String)
        (last : String) (v c : J), lookupJ s fs = some c →
      setPath (.obj fs) (s :: rest) last v =
        (setPath c rest last v).map fun c₂ => .obj (objSet fs s c₂)) ∧
    (∀ (xs : List J) (s : String) (rest : List String) (last : String)
        (v c : J) (n : Nat), parsePyInt s = some (n : Int) →
        n < xs.length → xs.get? n = some c →
      setPath (.arr xs) (s :: rest) last v =
        (setPath c rest last v).map fun c₂ => .arr (xs.set n c₂)) ∧
    (∀ (fs : List (String × J)) (last : String) (v : J),
      setPath (.obj fs) [] last v = some (.obj (objSet fs last v))) ∧
    (∀ (xs : List J) (last : String) (v : J) (n : Nat),
        parsePyInt last = some (n : Int) → n < xs.length →
      setPath (.arr xs) [] last v = some (.arr (xs.set n v))) ∧
    map_files_to_operations
      (.obj [("query", .str "q1"), ("variables", .obj [("data", .null)])])
      [("0", ["variables.data"])] [("0", .file "0")] =
      some (.obj [("query", .str "q1"),
        ("variables", .obj [("data", .file "0")])]) ∧
    map_files_to_operations
      (.obj [("query", .str "q2"),
        ("variables", .obj [("data", .arr [.null, .null])])])
      [("0", ["variables.data.0"]), ("1", ["variables.data.1"])]
      [("0", .file "0"), ("1", .file "1")] =
      some (.obj [("query", .str "q2"),
        ("variables", .obj [("data", .arr [.file "0", .file "1"])])]) ∧
    map_files_to_operations
      (.arr [.obj [("query", .str "q1"),
          ("variables", .obj [("data", .null)])],
        .obj [("query", .str "q2"),
          ("variables", .obj [("data", .arr [.null])])]])
      [("0", ["0.variables.data"]), ("1", ["1.variables.data.0"])]
      [("0", .file "0"), ("1", .file "1")] =
      some (.arr [.obj [("query", .str "q1"),
          ("variables", .obj [("data", .file "0")])],
        .obj [("query", .str "q2"),
          ("variables", .obj [("data", .arr [.file "1"])])]]) ∧
    setPath (.obj [("data", .str "already set")]) [] "data" (.file "0") =
      some (.obj [("data", .file "0")]) := by
  refine ⟨?_, ?_, ?_, ?_, rfl, rfl, rfl, rfl⟩
  · intro fs s rest last v c h
    cases hsp : setPath c rest last v <;>
      simp [setPath, accAt, child, setChild, h, hsp]
  · intro xs s rest last v c n hp hn hc
    have hcc : xs[n] = c := by
      have h := hc
      rw [List.get?_eq_getElem?, List.getElem?_eq_getElem hn] at h
      exact Option.some.inj h
    cases hsp : setPath c rest last v <;>
      simp [setPath, accAt, child, setChild, hp, resolveIdx_coe_lt _ _ hn,
        hcc, hsp, hn]
  · intro fs last v
    simp [setPath, accAt, setChild]
  · intro xs last v n hp hn
    simp [setPath, accAt, setChild, hp, resolveIdx_coe_lt _ _ hn, hn]

/-- Witness for C3: the step equations instantiated at concrete cursors. -/
theorem claim_C3_witness :
    setPath (.obj [("variables", .obj [("data", .null)])])
        ["variables"] "data" (.file "0") =
      (setPath (.obj [("data", .null)]) [] "data" (.file "0")).map
        (fun c₂ =>
          .obj (objSet [("variables", .obj [("data", .null)])]
            "variables" c₂)) ∧
    setPath (.arr [.obj [("a", .null)], .obj [("b", .null)]]) ["1"] "b"
        (.file "1") =
      (setPath (.obj [("b", .null)]) [] "b" (.file "1")).map
        (fun c₂ =>
          .arr ([J.obj [("a", .null)], .obj [("b", .null)]].set 1 c₂)) ∧
    setPath (.arr [.null, .null]) [] "1" (.file "1") =
      some (.arr [.null, .file "1"]) := by
  refine ⟨?_, ?_, ?_⟩
  · exact claim_C3.1 [("variables", .obj [("data", .null)])] "variables" []
      "data" (.file "0") (.obj [("data", .null)]) rfl
  · exact claim_C3.2.1 [.obj [("a", .null)], .obj [("b", .null)]] "1" [] "b"
      (.file "1") (.obj [("b", .null)]) 1 rfl (by decide) rfl
  · exact claim_C3.2.2.2.1 [.null, .null] "1" (.file "1") 1 rfl (by decide)

theorem lookupJ_objSet_self {α : Type} (fs : List (String × α)) (k : String)
    (v : α) : lookupJ k (objSet fs k v) = some v := by
  induction fs with
  | nil => simp [objSet, lookupJ]
  | cons kv rest ih =>
    by_cases h : kv.1 = k
    · simp [objSet, h, lookupJ]
    · simp [objSet, h, lookupJ, ih]

theorem lookupJ_objSet_ne {α : Type} (fs : List (String × α))
    (k k₂ : String) (v : α) (h : k₂ ≠ k) :
    lookupJ k₂ (objSet fs k v) = lookupJ k₂ fs := by
  induction fs with
  | nil => simp [objSet, lookupJ, Ne.symm h]
  | cons kv rest ih =>
    by_cases hk : kv.1 = k
    · subst hk
      simp [objSet, lookupJ, Ne.symm h]
    · simp [objSet, lookupJ, hk, ih]

theorem get?_set_self {α : Type} (xs : List α) (n : Nat) (v : α)
    (h : n < xs.length) : (xs.set n v)[n]? = some v :=
  List.getElem?_set_eq_of_lt v h

theorem get?_set_ne {α : Type} (xs : List α) (n m : Nat) (v : α)
    (h : m ≠ n) : (xs.set n v)[m]? = xs[m]? :=
  List.getElem?_set_ne (Ne.symm h)

theorem accAt_setChild (t : J) (a : Accessor) (v : J) (t₂ : J)
    (h : setChild t a v = some t₂) (s : String) : accAt t₂ s = accAt t s := by
  cases t with
  | arr xs =>
    cases a with
    | idx n =>
      by_cases hn : n < xs.length
      · simp only [setChild, if_pos hn] at h
        cases h
        simp [accAt, List.length_set]
      · simp [setChild, if_neg hn] at h
    | key k => simp [setChild] at h
  | obj fs =>
    cases a with
    | idx n => simp [setChild] at h
    | key k =>
      simp only [setChild] at h
      cases h
      simp [accAt]
  | null => simp [setChild] at h
  | str s₂ => simp [setChild] at h
  | num n => simp [setChild] at h
  | file f => simp [setChild] at h

theorem child_setChild_self (t : J) (a : Accessor) (v : J) (t₂ : J)
    (h : setChild t a v = some t₂) : child t₂ a = some v := by
  cases t with
  | arr xs =>
    cases a with
    | idx n =>
      by_cases hn : n < xs.length
      · simp only [setChild, if_pos hn] at h
        cases h
        simp [child, get?_set_self xs n v hn]
      · simp [setChild, if_neg hn] at h
    | key k => simp [setChild] at h
  | obj fs =>
    cases a with
    | idx n => simp [setChild] at h
    | key k =>
      simp only [setChild] at h
      cases h
      simp [child, lookupJ_objSet_self]
  | null => simp [setChild] at h
  | str s₂ => simp [setChild] at h
  | num n => simp [setChild] at h
  | file f => simp [setChild] at h

theorem child_setChild_ne (t : J) (a b : Accessor) (v : J) (t₂ : J)
    (h : setChild t a v = some t₂) (hne : b ≠ a) :
    child t₂ b = child t b := by
  cases t with
  | arr xs =>
    cases a with
    | idx n =>
      by_cases hn : n < xs.length
      · simp only [setChild, if_pos hn] at h
        cases h
        cases b with
        | idx m => simp [child, get?_set_ne xs n m v (by simpa using hne)]
        | key k => simp [child]
      · simp [setChild, if_neg hn] at h
    | key k => simp [setChild] at h
  | obj fs =>
    cases a with
    | idx n => simp [setChild] at h
    | key k =>
      simp only [setChild] at h
      cases h
      cases b with
      | idx m => simp [child]
      | key k₂ =>
        simp [child, lookupJ_objSet_ne fs k k₂ v (by simpa using hne)]
  | null => simp [setChild] at h
  | str s₂ => simp [setChild] at h
  | num n => simp [setChild] at h
  | file f => simp [setChild] at h

theorem setPath_frame :
    ∀ (segs : List String) (t : J) (last : String) (v t₂ : J)
      (q : List String),
      setPath t segs last v = some t₂ →
      Diverges t (segs ++ [last]) q →
      getPath t₂ q = getPath t q := by
  intro segs
  induction segs with
  | nil =>
    intro t last v t₂ q hset hdiv
    simp only [setPath] at hset
    rcases Option.bind_eq_some.mp hset with ⟨a, ha, hsc⟩
    cases hdiv with
    | here t s₁ s₂ r₁ r₂ a₁ a₂ h₁ h₂ hne =>
      rw [ha] at h₁
      injection h₁ with h₁e
      subst h₁e
      simp only [getPath]
      rw [accAt_setChild t a v t₂ hsc s₂, h₂, Option.some_bind,
        Option.some_bind, child_setChild_ne t a a₂ v t₂ hsc (Ne.symm hne)]
    | there t s r₁ r₂ a₁ c₁ ha₁ hc₁ hd => cases hd
  | cons s rest ih =>
    intro t last v t₂ q hset hdiv
    simp only [setPath] at hset
    rcases Option.bind_eq_some.mp hset with ⟨a, ha, hrest⟩
    rcases Option.bind_eq_some.mp hrest with ⟨c, hc, hrest₂⟩
    rcases Option.bind_eq_some.mp hrest₂ with ⟨c₂, hsp, hsc⟩
    cases hdiv with
    | here t s₁ s₂ r₁ r₂ a₁ a₂ h₁ h₂ hne =>
      rw [ha] at h₁
      injection h₁ with h₁e
      subst h₁e
      simp only [getPath]
      rw [accAt_setChild t a c₂ t₂ hsc s₂, h₂, Option.some_bind,
        Option.some_bind, child_setChild_ne t a a₂ c₂ t₂ hsc (Ne.symm hne)]
    | there t s₁ r₁ r₂ a₁ c₁ ha₁ hc₁ hd =>
      rw [ha] at ha₁
      injection ha₁ with hae
      subst hae
      rw [hc] at hc₁
      injection hc₁ with hce
      subst hce
      simp only [getPath]
      rw [accAt_setChild t a c₂ t₂ hsc s, ha, Option.some_bind,
        Option.some_bind, child_setChild_self t a c₂ t₂ hsc, hc,
        Option.some_bind, Option.some_bind]
      exact ih c last v c₂ r₂ hsp hd

theorem splitDotAux_ne_nil : ∀ (cs acc : List Char), splitDotAux cs acc ≠ [] := by
  intro cs
  induction cs with
  | nil => intro acc; exact List.cons_ne_nil _ _
  | cons c cs₂ ih =>
    intro acc
    unfold splitDotAux
    by_cases h : c = '.'
    · rw [if_pos h]; exact List.cons_ne_nil _ _
    · rw [if_neg h]; exact ih _

theorem splitDot_ne_nil (s : String) : splitDot s ≠ [] :=
  splitDotAux_ne_nil s.data []

theorem dropLast_append_getLastD {α : Type} (d : α) (l : List α)
    (h : l ≠ []) : l.dropLast ++ [l.getLastD d] = l := by
  rcases List.eq_nil_or_concat l with rfl | ⟨l₂, b, rfl⟩
  · exact absurd rfl h
  · simp [List.dropLast_concat, List.getLastD_concat, List.concat_eq_append]

theorem foldlM_opt_append {α β : Type} (g : β → α → Option β) :
    ∀ (l₁ l₂ : List α) (init : β),
      (l₁ ++ l₂).foldlM g init =
        (l₁.foldlM g init).bind fun m => l₂.foldlM g m := by
  intro l₁
  induction l₁ with
  | nil => intro l₂ init; simp
  | cons x rest ih =>
    intro l₂ init
    simp only [List.cons_append, List.foldlM_cons]
    cases hg : g init x with
    | none => simp [hg]
    | some m => simp [hg, ih]

theorem map_files_flatten (files : List (String × J)) :
    ∀ (fm : List (String × List String)) (ops : J),
      map_files_to_operations ops fm files =
        (flattenMap fm).foldlM (fun t kp => applyPath files kp.1 t kp.2)
          ops := by
  intro fm
  induction fm with
  | nil => intro ops; rfl
  | cons entry fm₂ ih =>
    intro ops
    simp only [map_files_to_operations, List.foldlM_cons, flattenMap,
      List.flatMap_cons]
    rw [foldlM_opt_append, List.foldlM_map]
    cases h : entry.2.foldlM (applyPath files entry.1) ops with
    | none => simp [h]
    | some m =>
      simp only [h, Option.some_bind]
      have ih₂ := ih m
      simp only [map_files_to_operations, flattenMap] at ih₂
      simpa using ih₂

theorem framed_fold (files : List (String × J)) (q : List String) :
    ∀ (l : List (String × String)) (t t₂ : J),
      l.foldlM (fun t kp => applyPath files kp.1 t kp.2) t = some t₂ →
      FramedFrom files q t l →
      getPath t₂ q = getPath t q := by
  intro l
  induction l with
  | nil =>
    intro t t₂ h _
    simp only [List.foldlM_nil] at h
    cases h
    rfl
  | cons kp rest ih =>
    intro t t₂ h hf
    obtain ⟨hdiv, hrest⟩ := hf
    simp only [List.foldlM_cons] at h
    cases ha : applyPath files kp.1 t kp.2 with
    | none => rw [ha] at h; simp at h
    | some t₁ =>
      rw [ha] at h hrest
      simp only [Option.bind_eq_bind, Option.some_bind] at h
      have hstep : getPath t₁ q = getPath t q := by
        unfold applyPath at ha
        cases hl : lookupJ kp.1 files with
        | none => rw [hl] at ha; simp at ha
        | some f =>
          rw [hl] at ha
          simp only at ha
          refine setPath_frame (splitDot kp.2).dropLast t
            ((splitDot kp.2).getLastD "") f t₁ q ha ?_
          rw [dropLast_append_getLastD "" (splitDot kp.2)
            (splitDot_ne_nil kp.2)]
          exact hdiv
      rw [← hstep]
      exact ih t₁ t₂ h hrest

/-- C10: `map_files_to_operations` only writes the terminal locations of
the file-map paths: when it succeeds, the value at every location whose
segment walk diverges from each applied path (every query text,
operationName, and unaddressed variable in particular) is unchanged. -/
theorem claim_C10 (fm : List (String × List String))
    (files : List (String × J)) (ops ops₂ : J) (q : List String)
    (h : map_files_to_operations ops fm files = some ops₂)
    (hf : FramedFrom files q ops (flattenMap fm)) :
    getPath ops₂ q = getPath ops q := by
  rw [map_files_flatten files fm ops] at h
  exact framed_fold files q (flattenMap fm) ops ops₂ h hf

/-- Witness for C10 at the batched multipart upload of `test_batch`: the
first operation's query text is untouched by the two file writes. -/
theorem claim_C10_witness :
    getPath
      (.arr [.obj [("query", .str "q1"),
          ("variables", .obj [("data", .file "0")])],
        .obj [("query", .str "q2"),
          ("variables", .obj [("data", .arr [.file "1"])])]])
      ["0", "query"] =
    getPath
      (.arr [.obj [("query", .str "q1"),
          ("variables", .obj [("data", .null)])],
        .obj [("query", .str "q2"),
          ("variables", .obj [("data", .arr [.null])])]])
      ["0", "query"] := by
  refine claim_C10
    [("0", ["0.variables.data"]), ("1", ["1.variables.data.0"])]
    [("0", .file "0"), ("1", .file "1")]
    (.arr [.obj [("query", .str "q1"),
        ("variables", .obj [("data", .null)])],
      .obj [("query", .str "q2"),
        ("variables", .obj [("data", .arr [.null])])]])
    (.arr [.obj [("query", .str "q1"),
        ("variables", .obj [("data", .file "0")])],
      .obj [("query", .str "q2"),
        ("variables", .obj [("data", .arr [.file "1"])])]])
    ["0", "query"] rfl ?_
  refine ⟨?_, ?_, trivial⟩
  · exact Diverges.there _ _ _ _ (.idx 0)
      (.obj [("query", .str "q1"), ("variables", .obj [("data", .null)])])
      rfl rfl
      (Diverges.here _ _ _ _ _ (.key "variables") (.key "query") rfl rfl
        (by decide))
  · exact Diverges.here _ _ _ _ _ (.idx 1) (.idx 0) rfl rfl (by decide)
